import Mathlib

/-!
Verification of the in-memory post store and its service layer.

The repository state is a `MapRepository`: a map from integer identifiers
to post records (embedded as a function `Int → Option PostRead`) together
with a `nextID` counter.  The five repository operations and the
service-layer operations are translated from the source; each operation
returns its result together with the (possibly updated) state.
-/

namespace Rakia

/-- A stored post record: identifier plus title, content, author. -/
structure PostRead where
  id : Int
  title : String
  content : String
  author : String
deriving DecidableEq, Repr

/-- The payload of a create or update request (no identifier). -/
structure PostCreateUpdate where
  title : String
  content : String
  author : String
deriving DecidableEq, Repr

/-- Error kinds signalled by the repository and the service layer:
`postNotFound` (ErrPostNotFound), `invalidPostID` ("invalid post ID"),
`validationFailed` (validator error on required fields). -/
inductive PostsError where
  | postNotFound
  | invalidPostID
  | validationFailed
deriving DecidableEq, Repr

/-- The state of `MapRepository`: the posts map and the next-id counter. -/
@[ext]
structure MapRepository where
  posts : Int → Option PostRead
  nextID : Int

/-- Insertion into the map (`r.posts[k] = v`). -/
def mapInsert (m : Int → Option PostRead) (k : Int) (v : PostRead) :
    Int → Option PostRead :=
  fun j => if j = k then some v else m j

/-- Removal from the map (`delete(r.posts, k)`). -/
def mapDelete (m : Int → Option PostRead) (k : Int) :
    Int → Option PostRead :=
  fun j => if j = k then none else m j

/-- One iteration of the bootstrap loop: insert the post keyed by its own
id and update the running maximum id. -/
def bootInsert (acc : (Int → Option PostRead) × Int) (post : PostRead) :
    (Int → Option PostRead) × Int :=
  (mapInsert acc.1 post.id post, if post.id > acc.2 then post.id else acc.2)

/-- `NewMapRepository`: builds the store from the decoded `posts` sequence
of the bootstrap file.  Starts from an empty map and `maxID = 0`, inserts
every record keyed by its id while tracking the maximum id, then sets
`nextID := maxID + 1`. -/
def NewMapRepository (postsList : List PostRead) : MapRepository :=
  let acc := postsList.foldl bootInsert (fun _ => none, 0)
  { posts := acc.1, nextID := acc.2 + 1 }

/-- `MapRepository.GetByID`: returns the stored record, or `postNotFound`
when the id is absent.  The state is returned unchanged (the method only
reads). -/
def GetByID (r : MapRepository) (id : Int) :
    Except PostsError PostRead × MapRepository :=
  match r.posts id with
  | some val => (.ok val, r)
  | none => (.error .postNotFound, r)

/-- `MapRepository.Create`: builds the record from the payload with
`id = nextID`, inserts it, advances the counter, and returns it. -/
def Create (r : MapRepository) (data : PostCreateUpdate) :
    Except PostsError PostRead × MapRepository :=
  let createdPost : PostRead :=
    { id := r.nextID, title := data.title, content := data.content,
      author := data.author }
  (.ok createdPost,
   { posts := mapInsert r.posts r.nextID createdPost, nextID := r.nextID + 1 })

/-- `MapRepository.Update`: `postNotFound` when the id is absent; otherwise
replaces the stored record wholesale with the payload (keeping `id`) and
returns the new record. -/
def Update (r : MapRepository) (id : Int) (data : PostCreateUpdate) :
    Except PostsError PostRead × MapRepository :=
  match r.posts id with
  | none => (.error .postNotFound, r)
  | some _ =>
    let updatedPost : PostRead :=
      { id := id, title := data.title, content := data.content,
        author := data.author }
    (.ok updatedPost, { r with posts := mapInsert r.posts id updatedPost })

/-- `MapRepository.Delete`: removes the id (a no-op when absent) and always
returns success. -/
def Delete (r : MapRepository) (id : Int) :
    Except PostsError Unit × MapRepository :=
  (.ok (), { r with posts := mapDelete r.posts id })

/-- `PostCreateUpdate.Validate`: the `validate:"required"` tags fail
exactly when a string field is its zero value, the empty string. -/
def Validate (data : PostCreateUpdate) : Except PostsError Unit :=
  if data.title = "" ∨ data.content = "" ∨ data.author = "" then
    .error .validationFailed
  else
    .ok ()

/-- `PostService.GetPostByID`: rejects `id ≤ 0` with the invalid-id error,
otherwise delegates to the repository. -/
def GetPostByID (r : MapRepository) (id : Int) :
    Except PostsError PostRead × MapRepository :=
  if id ≤ 0 then (.error .invalidPostID, r) else GetByID r id

/-- `PostService.CreatePost`: validates the payload, then delegates to
`Create`. -/
def CreatePost (r : MapRepository) (data : PostCreateUpdate) :
    Except PostsError PostRead × MapRepository :=
  match Validate data with
  | .error e => (.error e, r)
  | .ok _ => Create r data

/-- `PostService.UpdatePost`: rejects `id ≤ 0`, validates the payload,
checks existence via `GetByID`, then delegates to `Update`. -/
def UpdatePost (r : MapRepository) (id : Int) (data : PostCreateUpdate) :
    Except PostsError PostRead × MapRepository :=
  if id ≤ 0 then (.error .invalidPostID, r)
  else
    match Validate data with
    | .error e => (.error e, r)
    | .ok _ =>
      match GetByID r id with
      | (.error e, r1) => (.error e, r1)
      | (.ok _, r1) => Update r1 id data

/-- `PostService.DeletePost`: rejects `id ≤ 0`, otherwise delegates to
`Delete`. -/
def DeletePost (r : MapRepository) (id : Int) :
    Except PostsError Unit × MapRepository :=
  if id ≤ 0 then (.error .invalidPostID, r) else Delete r id

/-- The store invariant: the counter strictly dominates every key present
in the map. -/
def GoodState (r : MapRepository) : Prop :=
  ∀ k p, r.posts k = some p → k < r.nextID

/-- Mutating operations of the repository, for reasoning about sequences
of calls. -/
inductive Op where
  | create (data : PostCreateUpdate)
  | update (id : Int) (data : PostCreateUpdate)
  | delete (id : Int)

/-- The state after one repository operation. -/
def applyOp (r : MapRepository) : Op → MapRepository
  | .create data => (Create r data).2
  | .update id data => (Update r id data).2
  | .delete id => (Delete r id).2

/-- States reachable from a bootstrapped store by repository operations. -/
inductive Reachable : MapRepository → Prop
  | boot (postsList : List PostRead) : Reachable (NewMapRepository postsList)
  | step (r : MapRepository) (op : Op) : Reachable r → Reachable (applyOp r op)

/-- The identifiers returned by the `Create` calls of a sequence of
operations, in call order. -/
def createdIds (r : MapRepository) : List Op → List Int
  | [] => []
  | op :: rest =>
    match op with
    | .create data =>
      match (Create r data).1 with
      | .ok p => p.id :: createdIds (Create r data).2 rest
      | .error _ => createdIds (Create r data).2 rest
    | .update id data => createdIds (Update r id data).2 rest
    | .delete id => createdIds (Delete r id).2 rest

/-- Two states with equal fields are equal. -/
theorem MapRepository.eq_of_parts (r s : MapRepository) (h1 : r.posts = s.posts)
    (h2 : r.nextID = s.nextID) : r = s := by
  cases r; cases s; cases h1; cases h2; rfl

/-- Any binding in the map built by the bootstrap fold comes from the
initial map or from a record of the list keyed by its own id. -/
theorem boot_foldl_lookup (l : List PostRead) (m0 : Int → Option PostRead)
    (x0 : Int) (k : Int) (p : PostRead) :
    (l.foldl bootInsert (m0, x0)).1 k = some p →
    m0 k = some p ∨ (k = p.id ∧ p ∈ l) := by
  induction l generalizing m0 x0 with
  | nil => intro h; exact Or.inl h
  | cons q rest ih =>
    intro h
    simp only [List.foldl_cons, bootInsert] at h
    rcases ih _ _ h with h1 | h2
    · unfold mapInsert at h1
      by_cases hk : k = q.id
      · rw [if_pos hk] at h1
        obtain rfl : q = p := by injection h1
        exact Or.inr ⟨hk, List.mem_cons_self q rest⟩
      · rw [if_neg hk] at h1
        exact Or.inl h1
    · exact Or.inr ⟨h2.1, List.mem_cons_of_mem q h2.2⟩

/-- The running maximum of the bootstrap fold dominates its start value and
the id of every record of the list. -/
theorem boot_foldl_max_ge (l : List PostRead) (m0 : Int → Option PostRead)
    (x0 : Int) :
    x0 ≤ (l.foldl bootInsert (m0, x0)).2 ∧
    ∀ p ∈ l, p.id ≤ (l.foldl bootInsert (m0, x0)).2 := by
  induction l generalizing m0 x0 with
  | nil => exact ⟨le_refl x0, by simp⟩
  | cons q rest ih =>
    simp only [List.foldl_cons, bootInsert]
    obtain ⟨h1, h2⟩ := ih (mapInsert m0 q.id q) (if q.id > x0 then q.id else x0)
    refine ⟨le_trans ?_ h1, ?_⟩
    · split <;> omega
    · intro p hp
      rcases List.mem_cons.mp hp with rfl | hp2
      · refine le_trans ?_ h1
        split <;> omega
      · exact h2 p hp2

/-- The running maximum of the bootstrap fold is its start value or the id
of some record of the list. -/
theorem boot_foldl_max_mem (l : List PostRead) (m0 : Int → Option PostRead)
    (x0 : Int) :
    (l.foldl bootInsert (m0, x0)).2 = x0 ∨
    ∃ p ∈ l, (l.foldl bootInsert (m0, x0)).2 = p.id := by
  induction l generalizing m0 x0 with
  | nil => exact Or.inl rfl
  | cons q rest ih =>
    simp only [List.foldl_cons, bootInsert]
    rcases ih (mapInsert m0 q.id q) (if q.id > x0 then q.id else x0) with
      h | ⟨p, hp, he⟩
    · rw [h]
      split
      · exact Or.inr ⟨q, List.mem_cons_self q rest, rfl⟩
      · exact Or.inl rfl
    · exact Or.inr ⟨p, List.mem_cons_of_mem q hp, he⟩

/-- A key matching no record id of the list is untouched by the bootstrap
fold. -/
theorem boot_foldl_not_mem (l : List PostRead) (m0 : Int → Option PostRead)
    (x0 : Int) (k : Int) (hk : ∀ p ∈ l, k ≠ p.id) :
    (l.foldl bootInsert (m0, x0)).1 k = m0 k := by
  induction l generalizing m0 x0 with
  | nil => rfl
  | cons q rest ih =>
    simp only [List.foldl_cons, bootInsert]
    rw [ih _ _ (fun p hp => hk p (List.mem_cons_of_mem q hp))]
    unfold mapInsert
    rw [if_neg (hk q (List.mem_cons_self q rest))]

/-- When the record ids of the list are pairwise distinct, the bootstrap
fold maps each record's id to that record. -/
theorem boot_foldl_lookup_mem (l : List PostRead) (m0 : Int → Option PostRead)
    (x0 : Int) (hnd : (l.map PostRead.id).Nodup) (p : PostRead) (hp : p ∈ l) :
    (l.foldl bootInsert (m0, x0)).1 p.id = some p := by
  induction l generalizing m0 x0 with
  | nil => cases hp
  | cons q rest ih =>
    simp only [List.map_cons, List.nodup_cons] at hnd
    obtain ⟨hq, hrest⟩ := hnd
    simp only [List.foldl_cons, bootInsert]
    rcases List.mem_cons.mp hp with rfl | hp2
    · rw [boot_foldl_not_mem rest _ _ _ ?_]
      · unfold mapInsert
        rw [if_pos rfl]
      · intro s hs he
        exact hq (he ▸ List.mem_map_of_mem PostRead.id hs)
    · exact ih _ _ hrest hp2

/-- A bootstrapped store satisfies the counter invariant. -/
theorem goodState_boot (l : List PostRead) : GoodState (NewMapRepository l) := by
  intro k p hk
  simp only [NewMapRepository] at hk ⊢
  rcases boot_foldl_lookup l (fun _ => none) 0 k p hk with h | ⟨rfl, hmem⟩
  · cases h
  · have := (boot_foldl_max_ge l (fun _ => none) 0).2 p hmem
    omega

/-- No repository operation decreases the counter. -/
theorem nextID_le_applyOp (r : MapRepository) (op : Op) :
    r.nextID ≤ (applyOp r op).nextID := by
  cases op with
  | create data =>
    show r.nextID ≤ r.nextID + 1
    omega
  | update id data =>
    show r.nextID ≤ (Update r id data).2.nextID
    unfold Update
    cases hm : r.posts id
    · exact le_refl _
    · exact le_refl _
  | delete id => exact le_refl _

/-- Every repository operation preserves the counter invariant. -/
theorem goodState_applyOp (r : MapRepository) (op : Op) (h : GoodState r) :
    GoodState (applyOp r op) := by
  cases op with
  | create data =>
    intro k p hk
    simp only [applyOp, Create, mapInsert] at hk
    show k < r.nextID + 1
    by_cases hkk : k = r.nextID
    · omega
    · rw [if_neg hkk] at hk
      have := h k p hk
      omega
  | update id data =>
    intro k p hk
    simp only [applyOp, Update] at hk
    cases hm : r.posts id with
    | none =>
      rw [hm] at hk
      simp only [applyOp, Update, hm]
      exact h k p hk
    | some old =>
      rw [hm] at hk
      simp only [mapInsert] at hk
      simp only [applyOp, Update, hm]
      by_cases hkk : k = id
      · subst hkk
        exact h k old hm
      · rw [if_neg hkk] at hk
        exact h k p hk
  | delete id =>
    intro k p hk
    simp only [applyOp, Delete, mapDelete] at hk
    by_cases hkk : k = id
    · rw [if_pos hkk] at hk
      cases hk
    · rw [if_neg hkk] at hk
      exact h k p hk

/-- Unfolding `createdIds` on a leading `create`. -/
theorem createdIds_create (r : MapRepository) (data : PostCreateUpdate)
    (rest : List Op) :
    createdIds r (Op.create data :: rest) =
      r.nextID :: createdIds (Create r data).2 rest := rfl

/-- Unfolding `createdIds` on a leading `update`. -/
theorem createdIds_update (r : MapRepository) (id : Int)
    (data : PostCreateUpdate) (rest : List Op) :
    createdIds r (Op.update id data :: rest) =
      createdIds (Update r id data).2 rest := rfl

/-- Unfolding `createdIds` on a leading `delete`. -/
theorem createdIds_delete (r : MapRepository) (id : Int) (rest : List Op) :
    createdIds r (Op.delete id :: rest) =
      createdIds (Delete r id).2 rest := rfl

/-- Every id returned by a `Create` of the sequence is at least the
counter of the starting state. -/
theorem createdIds_lb (ops : List Op) :
    ∀ r, ∀ i ∈ createdIds r ops, r.nextID ≤ i := by
  induction ops with
  | nil =>
    intro r i hi
    cases hi
  | cons op rest ih =>
    intro r i hi
    cases op with
    | create data =>
      rw [createdIds_create] at hi
      rcases List.mem_cons.mp hi with rfl | hi2
      · exact le_refl _
      · have h1 := ih (Create r data).2 i hi2
        have h2 := nextID_le_applyOp r (Op.create data)
        exact le_trans h2 h1
    | update id data =>
      rw [createdIds_update] at hi
      have h1 := ih (Update r id data).2 i hi
      have h2 := nextID_le_applyOp r (Op.update id data)
      exact le_trans h2 h1
    | delete id =>
      rw [createdIds_delete] at hi
      have h1 := ih (Delete r id).2 i hi
      exact h1

/-- The ids returned by the `Create` calls of a sequence are strictly
increasing in call order. -/
theorem createdIds_sorted (ops : List Op) :
    ∀ r, List.Pairwise (fun a b => a < b) (createdIds r ops) := by
  induction ops with
  | nil =>
    intro r
    exact List.Pairwise.nil
  | cons op rest ih =>
    intro r
    cases op with
    | create data =>
      rw [createdIds_create]
      refine List.Pairwise.cons ?_ (ih (Create r data).2)
      intro i hi
      have h1 := createdIds_lb rest (Create r data).2 i hi
      have h2 : (Create r data).2.nextID = r.nextID + 1 := rfl
      omega
    | update id data =>
      rw [createdIds_update]
      exact ih _
    | delete id =>
      rw [createdIds_delete]
      exact ih _

/-- A sample state: the empty bootstrapped store after one `Create`, so it
holds exactly the record with id 1 and has counter 2. -/
def sampleRepo : MapRepository :=
  (Create (NewMapRepository []) { title := "t0", content := "c0", author := "a0" }).2

/-- C1: every state reachable from a bootstrapped store by Create, Update
and Delete operations has its counter strictly above every key of the map,
and no operation decreases the counter, so deletion never makes a used
identifier allocatable again. -/
theorem reachable_counter_dominates_keys :
    (∀ r, Reachable r → GoodState r) ∧
    (∀ r op, r.nextID ≤ (applyOp r op).nextID) := by
  constructor
  · intro r h
    induction h with
    | boot l => exact goodState_boot l
    | step r op _ ih => exact goodState_applyOp r op ih
  · exact nextID_le_applyOp

/-- Witness for C1 at a concrete reachable state. -/
theorem reachable_counter_dominates_keys_witness :
    GoodState sampleRepo :=
  reachable_counter_dominates_keys.1 sampleRepo
    (Reachable.step (NewMapRepository [])
      (Op.create { title := "t0", content := "c0", author := "a0" })
      (Reachable.boot []))

/-- C2: the ids returned by the successive Creates of any operation
sequence are strictly increasing (hence pairwise distinct) in call order;
in particular creating id 1, deleting it, and creating again yields 2. -/
theorem create_ids_strictly_increasing :
    (∀ r ops, List.Pairwise (fun a b => a < b) (createdIds r ops)) ∧
    (∀ d1 d2, createdIds (NewMapRepository [])
      [Op.create d1, Op.delete 1, Op.create d2] = [1, 2]) := by
  constructor
  · intro r ops
    exact createdIds_sorted ops r
  · intro d1 d2
    rfl

/-- C3: `Create` always succeeds, returns the payload's fields under the
state's next identifier, and a subsequent `GetByID` on that identifier
returns the same record. -/
theorem create_get_roundtrip (r : MapRepository) (data : PostCreateUpdate) :
    (Create r data).1 = Except.ok
      { id := r.nextID, title := data.title, content := data.content,
        author := data.author } ∧
    (GetByID (Create r data).2 r.nextID).1 = Except.ok
      { id := r.nextID, title := data.title, content := data.content,
        author := data.author } := by
  constructor
  · rfl
  · simp [GetByID, Create, mapInsert]

/-- C4: when the id is present, `Update` succeeds and replaces the record
wholesale with the payload's fields under the same id, a subsequent
`GetByID` returns exactly that record, and no other map entry nor the
counter changes. -/
theorem update_replaces_wholesale (r : MapRepository) (id : Int)
    (data : PostCreateUpdate) (h : (r.posts id).isSome) :
    (Update r id data).1 = Except.ok
      { id := id, title := data.title, content := data.content,
        author := data.author } ∧
    (GetByID (Update r id data).2 id).1 = Except.ok
      { id := id, title := data.title, content := data.content,
        author := data.author } ∧
    (∀ k, k ≠ id → (Update r id data).2.posts k = r.posts k) ∧
    (Update r id data).2.nextID = r.nextID := by
  obtain ⟨p, hp⟩ := Option.isSome_iff_exists.mp h
  refine ⟨?_, ?_, ?_, ?_⟩
  · simp [Update, hp]
  · simp [Update, GetByID, hp, mapInsert]
  · intro k hk
    simp only [Update, hp, mapInsert]
    rw [if_neg hk]
  · simp [Update, hp]

/-- Witness for C4 at a state holding the record with id 1. -/
theorem update_replaces_wholesale_witness :
    (Update sampleRepo 1 { title := "t1", content := "c1", author := "a1" }).1 =
      Except.ok { id := 1, title := "t1", content := "c1", author := "a1" } :=
  (update_replaces_wholesale sampleRepo 1
    { title := "t1", content := "c1", author := "a1" } rfl).1

/-- C5: `Delete` returns success on the first and on every repeated call,
deleting an absent id leaves the state unchanged, and deleting twice
yields the same state as deleting once. -/
theorem delete_idempotent (r : MapRepository) (id : Int) :
    (Delete r id).1 = Except.ok () ∧
    (Delete (Delete r id).2 id).1 = Except.ok () ∧
    (r.posts id = none → (Delete r id).2 = r) ∧
    (Delete (Delete r id).2 id).2 = (Delete r id).2 := by
  refine ⟨rfl, rfl, ?_, ?_⟩
  · intro h
    refine MapRepository.eq_of_parts _ _ ?_ rfl
    funext k
    show mapDelete r.posts id k = r.posts k
    unfold mapDelete
    by_cases hk : k = id
    · rw [if_pos hk, hk, h]
    · rw [if_neg hk]
  · refine MapRepository.eq_of_parts _ _ ?_ rfl
    funext k
    show mapDelete (mapDelete r.posts id) id k = mapDelete r.posts id k
    unfold mapDelete
    by_cases hk : k = id
    · rw [if_pos hk, if_pos hk]
    · rw [if_neg hk, if_neg hk]

/-- Witness for C5: deleting an id absent from a bootstrapped empty store
leaves the store unchanged. -/
theorem delete_idempotent_witness :
    (Delete (NewMapRepository []) 5).2 = NewMapRepository [] :=
  (delete_idempotent (NewMapRepository []) 5).2.2.1 rfl

/-- C6: on an absent id, `GetByID` and `Update` signal exactly the
not-found error kind (no success value); on a present id, `GetByID`
returns the stored record with no error. -/
theorem notfound_propagation (r : MapRepository) (id : Int)
    (data : PostCreateUpdate) :
    (r.posts id = none →
      (GetByID r id).1 = Except.error PostsError.postNotFound ∧
      (Update r id data).1 = Except.error PostsError.postNotFound) ∧
    (∀ p, r.posts id = some p → (GetByID r id).1 = Except.ok p) := by
  constructor
  · intro h
    constructor
    · simp [GetByID, h]
    · simp [Update, h]
  · intro p h
    simp [GetByID, h]

/-- Witness for C6 at the empty bootstrapped store and at a present id. -/
theorem notfound_propagation_witness :
    (GetByID (NewMapRepository []) 7).1 =
        Except.error PostsError.postNotFound ∧
    (GetByID sampleRepo 1).1 =
        Except.ok { id := 1, title := "t0", content := "c0", author := "a0" } :=
  ⟨((notfound_propagation (NewMapRepository []) 7
      { title := "t", content := "c", author := "a" }).1 rfl).1,
   (notfound_propagation sampleRepo 1
      { title := "t", content := "c", author := "a" }).2
      { id := 1, title := "t0", content := "c0", author := "a0" } rfl⟩

/-- C7: for non-positive ids, `GetPostByID` and `DeletePost` signal the
invalid-id error kind and leave the store untouched; for positive ids they
are exactly the repository's `GetByID` and `Delete`. -/
theorem service_invalid_id (r : MapRepository) (id : Int) :
    (id ≤ 0 →
      GetPostByID r id = (Except.error PostsError.invalidPostID, r) ∧
      DeletePost r id = (Except.error PostsError.invalidPostID, r)) ∧
    (0 < id →
      GetPostByID r id = GetByID r id ∧
      DeletePost r id = Delete r id) := by
  constructor
  · intro h
    constructor
    · unfold GetPostByID
      rw [if_pos h]
    · unfold DeletePost
      rw [if_pos h]
  · intro h
    have h2 : ¬ id ≤ 0 := not_le.mpr h
    constructor
    · unfold GetPostByID
      rw [if_neg h2]
    · unfold DeletePost
      rw [if_neg h2]

/-- Witness for C7 at id -1 on the empty bootstrapped store. -/
theorem service_invalid_id_witness :
    GetPostByID (NewMapRepository []) (-1) =
      (Except.error PostsError.invalidPostID, NewMapRepository []) :=
  ((service_invalid_id (NewMapRepository []) (-1)).1 (by decide)).1

/-- `GetByID` on an absent id: not-found error, state unchanged. -/
theorem GetByID_none (r : MapRepository) (id : Int) (h : r.posts id = none) :
    GetByID r id = (Except.error PostsError.postNotFound, r) := by
  unfold GetByID
  rw [h]

/-- `GetByID` on a present id: the stored record, state unchanged. -/
theorem GetByID_some (r : MapRepository) (id : Int) (p : PostRead)
    (h : r.posts id = some p) : GetByID r id = (Except.ok p, r) := by
  unfold GetByID
  rw [h]

/-- `GetByID` never changes the state. -/
theorem GetByID_state (r : MapRepository) (id : Int) :
    (GetByID r id).2 = r := by
  unfold GetByID
  cases r.posts id
  · rfl
  · rfl

/-- C8: bootstrapping from a record sequence with distinct positive ids
keys every record under its own id, maps every other key to nothing, and
sets the counter to one above the maximum id (1 when the sequence is
empty); bootstrapping from ids 1 and 2 makes the first Create return 3. -/
theorem bootstrap_seeds_store (l : List PostRead)
    (hpos : ∀ p ∈ l, 0 < p.id) (hnd : (l.map PostRead.id).Nodup) :
    (∀ p ∈ l, (NewMapRepository l).posts p.id = some p) ∧
    (∀ k, (∀ p ∈ l, k ≠ p.id) → (NewMapRepository l).posts k = none) ∧
    (l = [] → (NewMapRepository l).nextID = 1) ∧
    (l ≠ [] → ∃ p ∈ l, (NewMapRepository l).nextID = p.id + 1 ∧
      ∀ q ∈ l, q.id ≤ p.id) ∧
    (∀ d, (Create (NewMapRepository
        [{ id := 1, title := "t1", content := "c1", author := "a1" },
         { id := 2, title := "t2", content := "c2", author := "a2" }]) d).1 =
      Except.ok { id := 3, title := d.title, content := d.content,
                  author := d.author }) := by
  refine ⟨?_, ?_, ?_, ?_, ?_⟩
  · intro p hp
    simp only [NewMapRepository]
    exact boot_foldl_lookup_mem l _ 0 hnd p hp
  · intro k hk
    simp only [NewMapRepository]
    exact boot_foldl_not_mem l _ 0 k hk
  · intro h
    subst h
    rfl
  · intro h
    rcases boot_foldl_max_mem l (fun _ => none) 0 with hmax | ⟨p, hp, he⟩
    · exfalso
      obtain ⟨q, hq⟩ := List.exists_mem_of_ne_nil l h
      have h1 := (boot_foldl_max_ge l (fun _ => none) 0).2 q hq
      have h2 := hpos q hq
      omega
    · refine ⟨p, hp, ?_, ?_⟩
      · simp only [NewMapRepository]
        omega
      · intro q hq
        have h1 := (boot_foldl_max_ge l (fun _ => none) 0).2 q hq
        omega
  · intro d
    rfl

/-- Witness for C8 at the two-record bootstrap file with ids 1 and 2. -/
theorem bootstrap_seeds_store_witness :
    (NewMapRepository
      [{ id := 1, title := "t1", content := "c1", author := "a1" },
       { id := 2, title := "t2", content := "c2", author := "a2" }]).posts 1 =
      some { id := 1, title := "t1", content := "c1", author := "a1" } :=
  (bootstrap_seeds_store _ (by decide) (by decide)).1
    { id := 1, title := "t1", content := "c1", author := "a1" }
    (List.mem_cons_self _ _)

/-- C9: a payload with an empty title, content, or author makes
`CreatePost` (and `UpdatePost` for positive ids) signal the validation
error with the store untouched; a fully non-empty payload makes
`CreatePost` exactly `Create`, and `UpdatePost` first consults `GetByID`
and then is exactly `Update`. -/
theorem validation_gate (r : MapRepository) (id : Int)
    (data : PostCreateUpdate) :
    ((data.title = "" ∨ data.content = "" ∨ data.author = "") →
      CreatePost r data = (Except.error PostsError.validationFailed, r) ∧
      (0 < id →
        UpdatePost r id data = (Except.error PostsError.validationFailed, r))) ∧
    (data.title ≠ "" → data.content ≠ "" → data.author ≠ "" →
      CreatePost r data = Create r data ∧
      (0 < id →
        ((GetByID r id).1 = Except.error PostsError.postNotFound →
          UpdatePost r id data = (Except.error PostsError.postNotFound, r)) ∧
        (∀ p, (GetByID r id).1 = Except.ok p →
          UpdatePost r id data = Update r id data))) := by
  constructor
  · intro hv
    have hval : Validate data = Except.error PostsError.validationFailed := by
      unfold Validate
      rw [if_pos hv]
    constructor
    · unfold CreatePost
      rw [hval]
    · intro hid
      unfold UpdatePost
      rw [if_neg (not_le.mpr hid), hval]
  · intro h1 h2 h3
    have hval : Validate data = Except.ok () := by
      unfold Validate
      rw [if_neg]
      push_neg
      exact ⟨h1, h2, h3⟩
    constructor
    · unfold CreatePost
      rw [hval]
    · intro hid
      constructor
      · intro hget
        unfold UpdatePost
        rw [if_neg (not_le.mpr hid), hval]
        cases hm : r.posts id with
        | none => rw [GetByID_none r id hm]
        | some p =>
          rw [GetByID_some r id p hm] at hget
          simp at hget
      · intro p hget
        unfold UpdatePost
        rw [if_neg (not_le.mpr hid), hval]
        cases hm : r.posts id with
        | none =>
          rw [GetByID_none r id hm] at hget
          simp at hget
        | some q => rw [GetByID_some r id q hm]

/-- Witness for C9: an empty title at the empty bootstrapped store. -/
theorem validation_gate_witness :
    CreatePost (NewMapRepository []) { title := "", content := "c", author := "a" } =
      (Except.error PostsError.validationFailed, NewMapRepository []) :=
  ((validation_gate (NewMapRepository []) 1
    { title := "", content := "c", author := "a" }).1 (Or.inl rfl)).1

/-- C10: whenever a repository or service operation signals an error, the
state it returns — map and counter alike — is the state it was given. -/
theorem error_leaves_state (r : MapRepository) (id : Int)
    (data : PostCreateUpdate) :
    (∀ e, (GetByID r id).1 = Except.error e → (GetByID r id).2 = r) ∧
    (∀ e, (Update r id data).1 = Except.error e → (Update r id data).2 = r) ∧
    (∀ e, (GetPostByID r id).1 = Except.error e → (GetPostByID r id).2 = r) ∧
    (∀ e, (CreatePost r data).1 = Except.error e → (CreatePost r data).2 = r) ∧
    (∀ e, (UpdatePost r id data).1 = Except.error e →
      (UpdatePost r id data).2 = r) ∧
    (∀ e, (DeletePost r id).1 = Except.error e → (DeletePost r id).2 = r) :=
  by
  refine ⟨?_, ?_, ?_, ?_, ?_, ?_⟩
  · intro e _
    exact GetByID_state r id
  · intro e h
    cases hm : r.posts id with
    | none => simp only [Update, hm]
    | some p =>
      simp only [Update, hm] at h
      simp at h
  · intro e h
    by_cases hid : id ≤ 0
    · unfold GetPostByID
      rw [if_pos hid]
    · unfold GetPostByID
      rw [if_neg hid]
      exact GetByID_state r id
  · intro e h
    by_cases hv : data.title = "" ∨ data.content = "" ∨ data.author = ""
    · unfold CreatePost Validate
      rw [if_pos hv]
    · unfold CreatePost Validate at h
      rw [if_neg hv] at h
      simp [Create] at h
  · intro e h
    by_cases hid : id ≤ 0
    · unfold UpdatePost
      rw [if_pos hid]
    · by_cases hv : data.title = "" ∨ data.content = "" ∨ data.author = ""
      · have hval : Validate data = Except.error PostsError.validationFailed := by
          unfold Validate
          rw [if_pos hv]
        unfold UpdatePost
        rw [if_neg hid, hval]
      · have hval : Validate data = Except.ok () := by
          unfold Validate
          rw [if_neg hv]
        cases hm : r.posts id with
        | none =>
          unfold UpdatePost
          rw [if_neg hid, hval, GetByID_none r id hm]
        | some p =>
          unfold UpdatePost at h
          rw [if_neg hid, hval, GetByID_some r id p hm] at h
          simp only [Update, hm] at h
          simp at h
  · intro e h
    by_cases hid : id ≤ 0
    · unfold DeletePost
      rw [if_pos hid]
    · unfold DeletePost at h
      rw [if_neg hid] at h
      simp [Delete] at h

/-- Witness for C10: a failing `GetByID` on the empty bootstrapped store
returns the store unchanged. -/
theorem error_leaves_state_witness :
    (GetByID (NewMapRepository []) 7).2 = NewMapRepository [] :=
  (error_leaves_state (NewMapRepository []) 7
    { title := "t", content := "c", author := "a" }).1
    PostsError.postNotFound rfl

end Rakia
